import Mathlib

/-!
A shallow embedding of the version-resolution and idempotent-mutation engine
of `src/server.py` (module `od-smart-drafter`), together with theorems that
settle the specification claims about it.

Conventions of the embedding:
* Python strings are Lean `String`s; character-level operations (the
  per-character `str.lower()` and the substring operator `in`) are modelled on
  `List Char`, restricted to ASCII case folding (the file names, clause titles
  and cell texts the engine handles are ASCII).
* The regular expression `^{base}(_v(\d+))?\.docx$` used by both
  `get_latest_file_content` and `upload_new_version` is modelled by the
  structural decoder `decodeName`; `\d` is modelled as the ASCII digits
  `0`-`9` (Python would additionally accept other Unicode digits, and the
  final `$` would tolerate one trailing newline; no claim depends on such
  names).
* The external Supabase storage client is modelled by an environment `Env`
  supplying one response per call site (the list call of
  `get_latest_file_content`, the download call, the list call of
  `upload_new_version`, and the upload call); each modelled operation also
  returns the trace of store requests it issued, so that theorems can state
  that no upload happened.
* A parsed `python-docx` document is modelled by `Docx` (paragraph texts and
  tables); `doc.save` / `Document(stream)` round-trip bytes and are modelled
  as the identity on `Docx`.
* Python exceptions that the claims depend on (`IndexError` from list
  indexing, `AttributeError` from calling `.lower()` on `None`, `TypeError`
  from assigning `None` to a cell text) are modelled with `Except PyErr`.
* `load_clauses` reads `data/clauses.json` from disk; the dictionary it
  returns is passed to `draft_docx_od` as the explicit association list
  `clause_db` (insertion order preserved, as in a Python dict).
-/

/-! ### Character-level string helpers (Python `str.lower` and `in`) -/

/-- ASCII lower-casing of one character, as Python `str.lower()` acts on
ASCII letters. -/
def lowerChar (c : Char) : Char :=
  if 'A' ≤ c ∧ c ≤ 'Z' then Char.ofNat (c.toNat + 32) else c

/-- Per-character lower-casing of a character list. -/
def lowerL (l : List Char) : List Char := l.map lowerChar

/-- Does the text start with the pattern?  (List-level prefix test.) -/
def startsWithL : List Char → List Char → Bool
  | [], _ => true
  | _ :: _, [] => false
  | a :: as, b :: bs => a == b && startsWithL as bs

/-- Python substring operator `p in s` on character lists: some (possibly
empty) contiguous run of `s` equals `p`. -/
def hasSub (p : List Char) : List Char → Bool
  | [] => decide (p = [])
  | c :: cs => startsWithL p (c :: cs) || hasSub p cs

/-- Case-insensitive substring test `pat.lower() in s.lower()`, the
containment check used by `clause_exists`, `row_exists` and the clause-name
resolution of `draft_docx_od`. -/
def strContainsCI (pat s : String) : Bool :=
  hasSub (lowerL pat.toList) (lowerL s.toList)

/-! ### Naming scheme: the regex `^{base}(_v(\d+))?\.docx$` -/

/-- Strip a literal pattern from the front of a list: `some rest` when the
list is `pat ++ rest`, `none` otherwise. -/
def stripStart : List Char → List Char → Option (List Char)
  | [], s => some s
  | _ :: _, [] => none
  | p :: ps, c :: cs => if p = c then stripStart ps cs else none

/-- Strip a literal pattern from the end of a list. -/
def stripEnd (sfx s : List Char) : Option (List Char) :=
  (stripStart sfx.reverse s.reverse).map List.reverse

/-- Value of a digit string under Python `int()` (leading zeros allowed and
ignored: `int("01") = 1`). -/
def digitsVal (ds : List Char) : Nat :=
  ds.foldl (fun a c => 10 * a + (c.toNat - 48)) 0

/-- The `\d+` group: a nonempty, all-ASCII-digit run parses to its integer
value; anything else is a non-match. -/
def parseDigits (ds : List Char) : Option Nat :=
  if ds ≠ [] ∧ ds.all Char.isDigit then some (digitsVal ds) else none

/-- Decoder for the filename convention, one name tested against one base:
the anchored regex `^{re.escape(quote_number)}(_v(\d+))?\.docx$` of
`get_latest_file_content` (line 59) and `upload_new_version` (line 94).
`some 0` for the unsuffixed name `{quote}.docx` (the optional group absent),
`some n` for `{quote}_v{digits}.docx`, `none` for anything else. -/
def decodeName (quote name : String) : Option Nat :=
  if name = quote ++ ".docx" then some 0
  else
    match stripStart (quote.toList ++ ['_', 'v']) name.toList with
    | none => none
    | some rest =>
      match stripEnd ['.', 'd', 'o', 'c', 'x'] rest with
      | none => none
      | some ds => parseDigits ds

/-! ### Document model (python-docx `Document`) -/

/-- One structured table: `cols` is the number of grid columns (in
python-docx, `row.cells` always spans the table grid, so every row exposes
exactly `cols` cells, and `table.add_row()` creates a row of `cols` empty
cells); `rows` holds the cell texts of each row. -/
structure Table where
  cols : Nat
  rows : List (List String)
  deriving DecidableEq, Repr

/-- A parsed word-processing document: the texts of its paragraphs
(headings included — a heading is a styled paragraph) and its tables. -/
structure Docx where
  paragraphs : List String
  tables : List Table
  deriving DecidableEq, Repr

/-! ### Python exceptions the engine can hit inside its `try` blocks -/

/-- The exception kinds relevant to the modelled code paths. -/
inductive PyErr where
  /-- `IndexError: list index out of range`, from `cells[i]`. -/
  | indexError
  /-- `AttributeError`, from `None.lower()` when a parameter was omitted. -/
  | attributeError
  /-- `TypeError`, from assigning `None` to a python-docx cell text. -/
  | typeError
  deriving DecidableEq, Repr

/-- The `str(e)` rendering used in the `❌ Error: {str(e)}` replies. -/
def PyErr.toMsg : PyErr → String
  | .indexError => "list index out of range"
  | .attributeError => "NoneType object has no attribute lower"
  | .typeError => "text must be a string"

/-- Python list indexing `l[i]`, raising `IndexError` out of range. -/
def pyGet (l : List String) (i : Nat) : Except PyErr String :=
  match l.get? i with
  | some x => .ok x
  | none => .error PyErr.indexError

/-- Python `x.lower()` where `x` may be `None` (an omitted tool argument):
`AttributeError` on `None`, ASCII lower-casing otherwise. -/
def pyLower (x : Option String) : Except PyErr String :=
  match x with
  | some s => .ok (String.mk (lowerL s.toList))
  | none => .error PyErr.attributeError

/-! ### Duplicate checkers (`clause_exists`, `row_exists`) -/

/-- `clause_exists(doc, clause_title)` (lines 126-132): does some paragraph
contain the title, case-insensitively? -/
def clause_exists (doc : Docx) (clause_title : String) : Bool :=
  doc.paragraphs.any (fun p => strContainsCI clause_title p)

/-- One iteration of the `row_exists` loop (line 143):
`item_name.lower() in cells[0] and price.lower() in cells[2]`, with the
Python evaluation order (`item_name.lower()` first, then `cells[0]`; the
`and` short-circuits; then `price.lower()`, then `cells[2]`).  The list
`cells` is the lower-cased cell texts of the row (line 142, which cannot
raise). -/
def rowCheckCells (cells : List String) (item_name price : Option String) :
    Except PyErr Bool := do
  let iname ← pyLower item_name
  let c0 ← pyGet cells 0
  if hasSub iname.toList c0.toList then
    let pr ← pyLower price
    let c2 ← pyGet cells 2
    return hasSub pr.toList c2.toList
  else
    return false

/-- The comparison applied to one row: `cells` (line 142) is the list of
lower-cased cell texts of the row. -/
def rowCheck (row : List String) (item_name price : Option String) :
    Except PyErr Bool :=
  rowCheckCells (row.map (fun c => String.mk (lowerL c.toList))) item_name price

/-- The `for row in table.rows` loop of `row_exists`: first matching row
returns `True`, exhaustion returns `False`, exceptions propagate. -/
def rowExistsLoop (item_name price : Option String) :
    List (List String) → Except PyErr Bool
  | [] => .ok false
  | r :: rs => do
    let b ← rowCheck r item_name price
    if b then return true else rowExistsLoop item_name price rs

/-- `row_exists(doc, item_name, price)` (lines 134-145): `False` when the
document has no tables, otherwise scan the rows of the first table. -/
def row_exists (doc : Docx) (item_name price : Option String) :
    Except PyErr Bool :=
  match doc.tables with
  | [] => .ok false
  | t :: _ => rowExistsLoop item_name price t.rows

/-! ### The store environment and request traces -/

/-- One request issued to the Supabase storage client. -/
inductive Req where
  /-- `supabase.storage.from_(BUCKET_NAME).list()`. -/
  | list
  /-- `supabase.storage.from_(BUCKET_NAME).download(name)`. -/
  | download (name : String)
  /-- `supabase.storage.from_(BUCKET_NAME).upload(...)`; `upsert` records
  the `"upsert"` file option (the source always passes `"false"`). -/
  | upload (name : String) (upsert : Bool)
  deriving DecidableEq, Repr

/-- The external store behaviour for one tool invocation: one response per
call site.  `list1` answers the list call inside `get_latest_file_content`,
`list2` the (separate, fresh) list call inside `upload_new_version`.
`Except.error` models the corresponding Python call raising. -/
structure Env where
  list1 : Except String (List String)
  download : String → Except String Docx
  list2 : Except String (List String)
  upload : String → Except String Unit
  publicUrl : String → String

/-! ### Version resolver (`get_latest_file_content`, lines 47-82) -/

/-- The candidate-collection loop (lines 61-66): every listed name is
decoded against the quote number; matches contribute
`(version_num, name)`, non-matches are skipped. -/
def candidatesFor (quote : String) (names : List String) :
    List (Nat × String) :=
  names.filterMap (fun n => (decodeName quote n).map (fun v => (v, n)))

/-- Stable descending insertion step for
`candidates.sort(key=lambda x: x[0], reverse=True)`: an element keeps its
place before later elements with the same version number. -/
def insertDesc (p : Nat × String) :
    List (Nat × String) → List (Nat × String)
  | [] => [p]
  | q :: qs => if q.1 > p.1 then q :: insertDesc p qs else p :: q :: qs

/-- `candidates.sort(key=lambda x: x[0], reverse=True)` (line 72): a stable
sort by version number, descending.  (Stable sorts agree extensionally, so
this structural insertion sort computes the same list as the CPython
Timsort the source runs.) -/
def sortDesc : List (Nat × String) → List (Nat × String)
  | [] => []
  | p :: ps => insertDesc p (sortDesc ps)

/-- `get_latest_file_content(quote_number)` (lines 47-82): list the bucket,
decode every name against the quote, return `(None, None)` when nothing
matches, otherwise download the name with the highest version number.  The
surrounding `try` turns a raised list call or download call into the same
`(None, None)` result (lines 80-82).  The second component is the trace of
store requests issued. -/
def get_latest_file_content (env : Env) (quote_number : String) :
    Option (String × Docx) × List Req :=
  match env.list1 with
  | .error _ => (none, [Req.list])
  | .ok all_names =>
    let candidates := candidatesFor quote_number all_names
    if candidates = [] then (none, [Req.list])
    else
      match sortDesc candidates with
      | [] => (none, [Req.list])  -- unreachable: sortDesc preserves emptiness
      | latest :: _ =>
        match env.download latest.2 with
        | .error _ => (none, [Req.list, Req.download latest.2])
        | .ok doc => (some (latest.2, doc), [Req.list, Req.download latest.2])

/-! ### Next-version allocator and upload (`upload_new_version`, 84-120) -/

/-- The `max_v` loop of `upload_new_version` (lines 95-106): decode every
listed name against the quote, track the running maximum starting from `0`
(the `found_base` flag is also computed by the source but never used), and
return `max_v + 1`. -/
def nextVersion (quote : String) (names : List String) : Nat :=
  (names.filterMap (decodeName quote)).foldl
    (fun max_v v => if v > max_v then v else max_v) 0 + 1

/-- `upload_new_version(quote_number, stream)` (lines 84-120): re-list the
bucket, compute the next version number, and upload under
`{quote}_v{next}.docx` with `upsert: "false"`.  Any raised store call is
re-raised as `Exception("Upload failed: {e}")` (lines 119-120), modelled as
`Except.error`.  On success the public URL of the new object is returned.
The second component is the trace of store requests issued. -/
def upload_new_version (env : Env) (quote_number : String) (_stream : Docx) :
    Except String String × List Req :=
  match env.list2 with
  | .error e => (.error ("Upload failed: " ++ e), [Req.list])
  | .ok all_names =>
    let next_v := nextVersion quote_number all_names
    let new_filename := quote_number ++ "_v" ++ toString next_v ++ ".docx"
    match env.upload new_filename with
    | .error e =>
      (.error ("Upload failed: " ++ e),
       [Req.list, Req.upload new_filename false])
    | .ok _ =>
      (.ok (env.publicUrl new_filename),
       [Req.list, Req.upload new_filename false])

/-! ### Tool results -/

/-- The distinct returns of `draft_docx_od`, each constructor one return
site, carrying the data its f-string interpolates. -/
inductive DraftResult where
  /-- Line 166: clause not found; `available` is the comma-joined list of
  known titles; `isError: True`. -/
  | clauseNotFound (clause_name available : String)
  /-- Line 171: `❌ No files found for Quote {q}`; `isError: True`. -/
  | noFiles (quote : String)
  /-- Lines 181-183: clause already present; no `isError` flag. -/
  | alreadyExists (found_key latest_name : String)
  /-- Lines 194-199: success; no `isError` flag. -/
  | applied (found_key public_url : String)
  /-- Line 201: `❌ Error: {str(e)}`; `isError: True`. -/
  | error (msg : String)
  deriving DecidableEq, Repr

/-- Which `draft_docx_od` returns carry `isError: True`. -/
def DraftResult.isError : DraftResult → Bool
  | .clauseNotFound .. => true
  | .noFiles .. => true
  | .alreadyExists .. => false
  | .applied .. => false
  | .error .. => true

/-- The distinct returns of `add_line_item`, each constructor one return
site. -/
inductive AddResult where
  /-- Line 289: `❌ Quote {q} not found.` -/
  | notFound (quote : String)
  /-- Line 296: `❌ No tables found in document.` -/
  | noTables
  /-- Line 299: row already present (`item_name` is the raw parameter the
  f-string interpolates, hence still optional). -/
  | alreadyExists (item_name : Option String) (latest_name : String)
  /-- Line 311: success. -/
  | applied (item_name : Option String) (public_url : String)
  /-- Line 313: `❌ Error: {str(e)}`. -/
  | error (msg : String)
  deriving DecidableEq, Repr

/-- Which `add_line_item` returns are failure messages (`❌` prefix). -/
def AddResult.isError : AddResult → Bool
  | .notFound .. => true
  | .noTables => true
  | .alreadyExists .. => false
  | .applied .. => false
  | .error .. => true

/-! ### Tool: `draft_docx_od` (lines 151-201) -/

/-- `draft_docx_od(ctx, quote_number, clause_name)`: resolve the clause
query against the dictionary (line 162: first key whose lower-cased title
is a substring of the lower-cased query), fail with the list of options
when none matches, resolve the latest revision, no-op when the clause is
already present, otherwise append heading and body and upload a new
version.  `clause_db` is the dictionary `load_clauses()` returns.  The
second component is the trace of store requests issued. -/
def draft_docx_od (env : Env) (clause_db : List (String × String))
    (quote_number clause_name : String) : DraftResult × List Req :=
  match clause_db.find? (fun kv => strContainsCI kv.1 clause_name) with
  | none =>
    (.clauseNotFound clause_name
       (String.intercalate ", " (clause_db.map Prod.fst)), [])
  | some kv =>
    match get_latest_file_content env quote_number with
    | (none, tr) => (.noFiles quote_number, tr)
    | (some (latest_name, doc), tr) =>
      if clause_exists doc kv.1 then
        (.alreadyExists kv.1 latest_name, tr)
      else
        let doc2 : Docx :=
          { doc with paragraphs := doc.paragraphs ++ [kv.1, kv.2] }
        match upload_new_version env quote_number doc2 with
        | (.ok url, tr2) => (.applied kv.1 url, tr ++ tr2)
        | (.error msg, tr2) => (.error ("❌ Error: " ++ msg), tr ++ tr2)

/-! ### Tool: `add_line_item` (lines 265-313) -/

/-- `cell.text = v` on cell `i` of a row (lines 303-305): Python first
evaluates `row.cells[i]` (`IndexError` out of range), then the text setter
raises `TypeError` when `v` is `None`. -/
def setCellText (row : List String) (i : Nat) (v : Option String) :
    Except PyErr (List String) := do
  let _ ← pyGet row i
  match v with
  | none => .error PyErr.typeError
  | some s => .ok (row.set i s)

/-- The row-append block (lines 301-305): `table.add_row()` creates a row
of `cols` empty cells, then cells 0, 1, 2 are assigned the item name,
description and price. -/
def buildNewRow (cols : Nat) (item_name description price : Option String) :
    Except PyErr (List String) := do
  let r0 := List.replicate cols ""
  let r1 ← setCellText r0 0 item_name
  let r2 ← setCellText r1 1 description
  let r3 ← setCellText r2 2 price
  return r3

/-- `add_line_item(ctx, quote_number, item_name, description, price)`
(lines 265-313): resolve the latest revision, fail when the document has no
table, no-op when the row is already present, otherwise append the row and
upload a new version.  The `try` block (lines 294-313) turns any raised
exception into the `❌ Error: {e}` return.  The omitted-parameter defaults
(`None`) are modelled by `Option String`.  The second component is the
trace of store requests issued. -/
def add_line_item (env : Env) (quote_number : String)
    (item_name description price : Option String) : AddResult × List Req :=
  match get_latest_file_content env quote_number with
  | (none, tr) => (.notFound quote_number, tr)
  | (some (latest_name, doc), tr) =>
    match doc.tables with
    | [] => (.noTables, tr)
    | t :: rest =>
      match row_exists doc item_name price with
      | .error e => (.error ("❌ Error: " ++ e.toMsg), tr)
      | .ok true => (.alreadyExists item_name latest_name, tr)
      | .ok false =>
        match buildNewRow t.cols item_name description price with
        | .error e => (.error ("❌ Error: " ++ e.toMsg), tr)
        | .ok newRow =>
          let doc2 : Docx :=
            { doc with tables := { t with rows := t.rows ++ [newRow] } :: rest }
          match upload_new_version env quote_number doc2 with
          | (.ok url, tr2) => (.applied item_name url, tr ++ tr2)
          | (.error msg, tr2) => (.error ("❌ Error: " ++ msg), tr ++ tr2)

/-! ### Helper lemmas -/

theorem mem_insertDesc {a p : Nat × String} {l : List (Nat × String)} :
    a ∈ insertDesc p l ↔ a = p ∨ a ∈ l := by
  induction l with
  | nil => simp [insertDesc]
  | cons q qs ih =>
    by_cases h : q.1 > p.1
    · simp only [insertDesc, if_pos h, List.mem_cons, ih]
      tauto
    · simp only [insertDesc, if_neg h, List.mem_cons]

theorem mem_sortDesc {a : Nat × String} {l : List (Nat × String)} :
    a ∈ sortDesc l ↔ a ∈ l := by
  induction l with
  | nil => simp [sortDesc]
  | cons p ps ih => simp [sortDesc, mem_insertDesc, ih]

theorem pairwise_insertDesc {p : Nat × String} {l : List (Nat × String)}
    (h : l.Pairwise (fun a b => b.1 ≤ a.1)) :
    (insertDesc p l).Pairwise (fun a b => b.1 ≤ a.1) := by
  induction l with
  | nil => simp [insertDesc]
  | cons q qs ih =>
    rcases List.pairwise_cons.mp h with ⟨hq, hqs⟩
    by_cases hgt : q.1 > p.1
    · simp only [insertDesc, if_pos hgt]
      refine List.pairwise_cons.mpr ⟨?_, ih hqs⟩
      intro b hb
      rcases mem_insertDesc.mp hb with rfl | hb
      · exact Nat.le_of_lt hgt
      · exact hq b hb
    · simp only [insertDesc, if_neg hgt]
      refine List.pairwise_cons.mpr ⟨?_, h⟩
      intro b hb
      rcases List.mem_cons.mp hb with rfl | hb
      · exact Nat.le_of_not_lt hgt
      · exact Nat.le_trans (hq b hb) (Nat.le_of_not_lt hgt)

theorem pairwise_sortDesc (l : List (Nat × String)) :
    (sortDesc l).Pairwise (fun a b => b.1 ≤ a.1) := by
  induction l with
  | nil => simp [sortDesc]
  | cons p ps ih => exact pairwise_insertDesc ih

/-- The element the resolver picks (`candidates[0]` after the descending
sort) is a candidate achieving the maximum version number. -/
theorem sortDesc_head_max {l : List (Nat × String)} {p : Nat × String}
    {rest : List (Nat × String)} (h : sortDesc l = p :: rest) :
    p ∈ l ∧ ∀ q ∈ l, q.1 ≤ p.1 := by
  have hp : p ∈ l := mem_sortDesc.mp (h ▸ List.mem_cons_self p rest)
  refine ⟨hp, fun q hq => ?_⟩
  have hq2 : q ∈ p :: rest := h ▸ mem_sortDesc.mpr hq
  rcases List.mem_cons.mp hq2 with rfl | hq3
  · exact Nat.le_refl _
  · have := List.pairwise_cons.mp (h ▸ pairwise_sortDesc l)
    exact this.1 q hq3

theorem foldl_if_max_eq (l : List Nat) (a : Nat) :
    l.foldl (fun max_v v => if v > max_v then v else max_v) a
      = l.foldl Nat.max a := by
  induction l generalizing a with
  | nil => rfl
  | cons x xs ih =>
    have hx : (if x > a then x else a) = Nat.max a x := by
      rcases Nat.lt_or_ge a x with h | h
      · simp [h, Nat.max_eq_right (Nat.le_of_lt h)]
      · simp [Nat.not_lt.mpr h, Nat.max_eq_left h]
    simp only [List.foldl_cons, hx, ih]

theorem le_foldl_max (l : List Nat) (a : Nat) : a ≤ l.foldl Nat.max a := by
  induction l generalizing a with
  | nil => exact Nat.le_refl a
  | cons x xs ih =>
    exact Nat.le_trans (Nat.le_max_left a x) (ih (Nat.max a x))

theorem mem_le_foldl_max {l : List Nat} {x : Nat} (hx : x ∈ l) (a : Nat) :
    x ≤ l.foldl Nat.max a := by
  induction l generalizing a with
  | nil => cases hx
  | cons y ys ih =>
    rcases List.mem_cons.mp hx with rfl | h
    · exact Nat.le_trans (Nat.le_max_right a x) (le_foldl_max ys _)
    · exact ih h _

theorem foldl_max_le {l : List Nat} {m : Nat} (h : ∀ x ∈ l, x ≤ m)
    {a : Nat} (ha : a ≤ m) : l.foldl Nat.max a ≤ m := by
  induction l generalizing a with
  | nil => exact ha
  | cons x xs ih =>
    refine ih (fun y hy => h y (List.mem_cons_of_mem x hy)) ?_
    exact Nat.max_le.mpr ⟨ha, h x (List.mem_cons_self x xs)⟩

/-- Every request `get_latest_file_content` issues is the single list call
or a download; in particular it never uploads. -/
theorem get_latest_trace_shape (env : Env) (q : String) :
    ∀ r ∈ (get_latest_file_content env q).2,
      r = Req.list ∨ ∃ n, r = Req.download n := by
  unfold get_latest_file_content
  match h1 : env.list1 with
  | .error e => intro r hr; simp at hr; exact Or.inl hr
  | .ok names =>
    by_cases hc : candidatesFor q names = []
    · intro r hr; simp [hc] at hr; exact Or.inl hr
    · simp only [if_neg hc]
      match hs : sortDesc (candidatesFor q names) with
      | [] => intro r hr; simp at hr; exact Or.inl hr
      | latest :: rest =>
        cases hd : env.download latest.2 with
        | error e =>
          intro r hr
          simp [hd] at hr
          rcases hr with rfl | rfl
          · exact Or.inl rfl
          · exact Or.inr ⟨latest.2, rfl⟩
        | ok doc =>
          intro r hr
          simp [hd] at hr
          rcases hr with rfl | rfl
          · exact Or.inl rfl
          · exact Or.inr ⟨latest.2, rfl⟩

/-! ### Concrete fixtures used by witnesses and counterexamples -/

/-- A document with one heading paragraph and a three-column pricing table,
as the drafting flow produces. -/
def docQ1 : Docx :=
  { paragraphs := ["Quote 100", "Payment Terms"]
    tables := [{ cols := 3
                 rows := [["Item", "Description", "Price"],
                          ["Widget", "Basic widget", "$10"]] }] }

/-- A document with no tables. -/
def docNoTable : Docx := { paragraphs := ["Quote 100"], tables := [] }

/-- A document whose only table has a single grid column. -/
def docNarrow : Docx :=
  { paragraphs := [], tables := [{ cols := 1, rows := [["Item"]] }] }

/-- A healthy store for base `100`: revisions 0, 1 and 3 exist, download
serves `docQ1`, uploads succeed. -/
def envHealthy : Env :=
  { list1 := .ok ["100.docx", "100_v1.docx", "100_v3.docx", "other.docx"]
    download := fun _ => .ok docQ1
    list2 := .ok ["100.docx", "100_v1.docx", "100_v3.docx", "other.docx"]
    upload := fun _ => .ok ()
    publicUrl := fun n => "https://store.example/od-files/" ++ n }

/-- The clause dictionary fixture (contents of `data/clauses.json`). -/
def clausesDb : List (String × String) :=
  [("Auto Renewal", "This agreement renews automatically."),
   ("Payment Terms", "Payment is due in 30 days.")]

/-- Is this request an upload? -/
def Req.isUpload : Req → Bool
  | .upload .. => true
  | _ => false

theorem candidatesFor_mem {quote : String} {names : List String}
    {p : Nat × String} (hp : p ∈ candidatesFor quote names) :
    decodeName quote p.2 = some p.1 ∧ p.2 ∈ names := by
  rcases List.mem_filterMap.mp hp with ⟨n, hn, he⟩
  cases hd : decodeName quote n with
  | none => rw [hd] at he; cases he
  | some v =>
    rw [hd] at he
    simp at he
    cases he
    exact ⟨hd, hn⟩

/-! ### Claim theorems -/

/-- C2: for every non-empty set of revision numbers decoded from the
listing for a base identifier, the next-version allocator returns
`max(listing) + 1` (gap-tolerant); for a listing with no revisions of the
base it yields revision 1. -/
theorem C2_next_version_allocation (quote : String) (names : List String) :
    (∀ m ∈ names.filterMap (decodeName quote),
       (∀ v ∈ names.filterMap (decodeName quote), v ≤ m) →
       nextVersion quote names = m + 1)
    ∧ (names.filterMap (decodeName quote) = [] →
       nextVersion quote names = 1) := by
  constructor
  · intro m hm hub
    unfold nextVersion
    rw [foldl_if_max_eq]
    have h1 : (names.filterMap (decodeName quote)).foldl Nat.max 0 ≤ m :=
      foldl_max_le hub (Nat.zero_le m)
    have h2 : m ≤ (names.filterMap (decodeName quote)).foldl Nat.max 0 :=
      mem_le_foldl_max hm 0
    omega
  · intro h
    unfold nextVersion
    rw [h]
    rfl

/-- C2 witness: the listing `{0,1,3}` allocates `4` (not `2`), and a
listing with no revision of the base allocates `1`. -/
theorem C2_next_version_allocation_witness :
    nextVersion "100" ["100.docx", "100_v1.docx", "100_v3.docx"] = 4
    ∧ nextVersion "100" ["other.docx"] = 1 :=
  ⟨(C2_next_version_allocation "100"
      ["100.docx", "100_v1.docx", "100_v3.docx"]).1 3 (by decide) (by decide),
   (C2_next_version_allocation "100" ["other.docx"]).2 (by decide)⟩

/-- C3: the resolver decodes every listed name against the base; with no
match it reports not-found, otherwise the candidate it picks (the head of
the descending sort) is a listed name decoding to the maximum revision
number, that name is downloaded, and a successful download is returned as
the latest content. -/
theorem C3_resolver_selects_max (env : Env) (quote : String)
    (names : List String) (h1 : env.list1 = .ok names) :
    (candidatesFor quote names = [] →
       get_latest_file_content env quote = (none, [Req.list]))
    ∧ (∀ latest rest,
        sortDesc (candidatesFor quote names) = latest :: rest →
        decodeName quote latest.2 = some latest.1
        ∧ latest.2 ∈ names
        ∧ (∀ p ∈ candidatesFor quote names, p.1 ≤ latest.1)
        ∧ (get_latest_file_content env quote).2
            = [Req.list, Req.download latest.2]
        ∧ (∀ doc, env.download latest.2 = .ok doc →
            (get_latest_file_content env quote).1 = some (latest.2, doc))) := by
  constructor
  · intro hc
    simp [get_latest_file_content, h1, hc]
  · intro latest rest hs
    have hmem : latest ∈ candidatesFor quote names :=
      (sortDesc_head_max hs).1
    have hmax : ∀ p ∈ candidatesFor quote names, p.1 ≤ latest.1 :=
      (sortDesc_head_max hs).2
    have hdec := candidatesFor_mem hmem
    have hne : ¬ candidatesFor quote names = [] := by
      intro h
      rw [h] at hmem
      cases hmem
    refine ⟨hdec.1, hdec.2, hmax, ?_, ?_⟩
    · simp only [get_latest_file_content, h1, if_neg hne, hs]
      cases hd : env.download latest.2 <;> simp [hd]
    · intro doc hd
      simp [get_latest_file_content, h1, if_neg hne, hs, hd]

/-- C3 witness: for the listing `{0,1,3}` of base `100`, the resolver
selects and downloads revision 3 and returns its content. -/
theorem C3_resolver_selects_max_witness :
    decodeName "100" "100_v3.docx" = some 3
    ∧ (get_latest_file_content envHealthy "100").2
        = [Req.list, Req.download "100_v3.docx"]
    ∧ (get_latest_file_content envHealthy "100").1
        = some ("100_v3.docx", docQ1) := by
  have h := (C3_resolver_selects_max envHealthy "100"
      ["100.docx", "100_v1.docx", "100_v3.docx", "other.docx"] rfl).2
      (3, "100_v3.docx") [(1, "100_v1.docx"), (0, "100.docx")] (by decide)
  exact ⟨h.1, h.2.2.2.1, h.2.2.2.2 docQ1 rfl⟩

/-- C1: when the idempotency check finds the semantic marker already in the
latest revision (the clause title for `draft_docx_od`, the item-name+price
pair for `add_line_item`), the tool returns the non-error already-exists
outcome and its store trace contains no upload, so no new revision object
is created. -/
theorem C1_idempotency_gate_blocks_upload :
    (∀ (env : Env) (db : List (String × String)) (q cn : String)
       (kv : String × String) (nm : String) (doc : Docx),
       db.find? (fun e => strContainsCI e.1 cn) = some kv →
       (get_latest_file_content env q).1 = some (nm, doc) →
       clause_exists doc kv.1 = true →
       (draft_docx_od env db q cn).1 = DraftResult.alreadyExists kv.1 nm
       ∧ ((draft_docx_od env db q cn).1).isError = false
       ∧ ∀ r ∈ (draft_docx_od env db q cn).2, r.isUpload = false)
    ∧ (∀ (env : Env) (q : String) (iname desc price : Option String)
       (nm : String) (doc : Docx),
       (get_latest_file_content env q).1 = some (nm, doc) →
       row_exists doc iname price = Except.ok true →
       (add_line_item env q iname desc price).1
           = AddResult.alreadyExists iname nm
       ∧ ((add_line_item env q iname desc price).1).isError = false
       ∧ ∀ r ∈ (add_line_item env q iname desc price).2,
           r.isUpload = false) := by
  constructor
  · intro env db q cn kv nm doc hfind hget hex
    cases hcall : get_latest_file_content env q with
    | mk o tr =>
      rw [hcall] at hget
      simp only at hget
      subst hget
      have hres : draft_docx_od env db q cn
          = (DraftResult.alreadyExists kv.1 nm, tr) := by
        simp [draft_docx_od, hfind, hcall, hex]
      refine ⟨by rw [hres], by rw [hres]; rfl, ?_⟩
      rw [hres]
      intro r hr
      have hr2 : r ∈ (get_latest_file_content env q).2 := by
        rw [hcall]; exact hr
      rcases get_latest_trace_shape env q r hr2 with rfl | ⟨n, rfl⟩ <;> rfl
  · intro env q iname desc price nm doc hget hrow
    have htab : ∃ t rest, doc.tables = t :: rest := by
      cases ht : doc.tables with
      | nil =>
        rw [row_exists, ht] at hrow
        cases hrow
      | cons t rest => exact ⟨t, rest, rfl⟩
    rcases htab with ⟨t, rest, ht⟩
    cases hcall : get_latest_file_content env q with
    | mk o tr =>
      rw [hcall] at hget
      simp only at hget
      subst hget
      have hres : add_line_item env q iname desc price
          = (AddResult.alreadyExists iname nm, tr) := by
        simp [add_line_item, hcall, ht, hrow]
      refine ⟨by rw [hres], by rw [hres]; rfl, ?_⟩
      rw [hres]
      intro r hr
      have hr2 : r ∈ (get_latest_file_content env q).2 := by
        rw [hcall]; exact hr
      rcases get_latest_trace_shape env q r hr2 with rfl | ⟨n, rfl⟩ <;> rfl

/-- C1 witness: on a store whose latest revision already holds the
`Payment Terms` heading and the `(Widget, $10)` row, both tools no-op
without uploading. -/
theorem C1_idempotency_gate_blocks_upload_witness :
    (draft_docx_od envHealthy clausesDb "100" "payment terms please").1
        = DraftResult.alreadyExists "Payment Terms" "100_v3.docx"
    ∧ ((draft_docx_od envHealthy clausesDb "100" "payment terms please").1).isError
        = false
    ∧ (add_line_item envHealthy "100" (some "Widget") (some "d") (some "$10")).1
        = AddResult.alreadyExists (some "Widget") "100_v3.docx"
    ∧ ((add_line_item envHealthy "100" (some "Widget") (some "d") (some "$10")).1).isError
        = false :=
  have h1 := C1_idempotency_gate_blocks_upload.1 envHealthy clausesDb "100"
      "payment terms please" ("Payment Terms", "Payment is due in 30 days.")
      "100_v3.docx" docQ1 (by decide) (by decide) (by decide)
  have h2 := C1_idempotency_gate_blocks_upload.2 envHealthy "100"
      (some "Widget") (some "d") (some "$10") "100_v3.docx" docQ1
      (by decide) (by rfl)
  ⟨h1.1, h1.2.1, h2.1, h2.2.1⟩

/-- C8: when the resolved latest revision contains no table,
`add_line_item` returns the distinct no-table failure, its store trace is
exactly the trace of the resolution (so the allocator, whose first act is a
fresh list call, was never invoked), and no upload was issued. -/
theorem C8_no_table_short_circuit (env : Env) (q : String)
    (iname desc price : Option String) (nm : String) (doc : Docx)
    (hget : (get_latest_file_content env q).1 = some (nm, doc))
    (htab : doc.tables = []) :
    (add_line_item env q iname desc price).1 = AddResult.noTables
    ∧ (add_line_item env q iname desc price).2
        = (get_latest_file_content env q).2
    ∧ ∀ r ∈ (add_line_item env q iname desc price).2,
        r.isUpload = false := by
  cases hcall : get_latest_file_content env q with
  | mk o tr =>
    rw [hcall] at hget
    simp only at hget
    subst hget
    have hres : add_line_item env q iname desc price
        = (AddResult.noTables, tr) := by
      simp [add_line_item, hcall, htab]
    refine ⟨by rw [hres], by simp [hres, hcall], ?_⟩
    rw [hres]
    intro r hr
    have hr2 : r ∈ (get_latest_file_content env q).2 := by
      rw [hcall]; exact hr
    rcases get_latest_trace_shape env q r hr2 with rfl | ⟨n, rfl⟩ <;> rfl

/-- C8 witness: on a latest revision without tables the tool reports the
no-table failure after only the list and download of the resolution. -/
theorem C8_no_table_short_circuit_witness :
    (add_line_item { envHealthy with download := fun _ => .ok docNoTable }
        "100" (some "Widget") (some "d") (some "$10")).1 = AddResult.noTables
    ∧ (add_line_item { envHealthy with download := fun _ => .ok docNoTable }
        "100" (some "Widget") (some "d") (some "$10")).2
        = (get_latest_file_content
            { envHealthy with download := fun _ => .ok docNoTable } "100").2
    ∧ (Req.download "100_v3.docx").isUpload = false :=
  have h := C8_no_table_short_circuit
    { envHealthy with download := fun _ => .ok docNoTable } "100"
    (some "Widget") (some "d") (some "$10") "100_v3.docx" docNoTable
    (by decide) (by decide)
  ⟨h.1, h.2.1, h.2.2 (Req.download "100_v3.docx") (by decide)⟩

/-- C9: `draft_docx_od` resolves the clause query exactly when some known
clause title is a case-insensitive substring of the query; when none
matches, the failure carries the comma-joined listing of all available
titles and no store request is issued. -/
theorem C9_clause_query_resolution (env : Env)
    (db : List (String × String)) (q cn : String) :
    ((∃ kv ∈ db, strContainsCI kv.1 cn = true) ↔
       ∀ a av, (draft_docx_od env db q cn).1 ≠ DraftResult.clauseNotFound a av)
    ∧ ((∀ kv ∈ db, strContainsCI kv.1 cn = false) →
       draft_docx_od env db q cn
         = (DraftResult.clauseNotFound cn
             (String.intercalate ", " (db.map Prod.fst)), [])) := by
  have hnone : (∀ kv ∈ db, strContainsCI kv.1 cn = false) →
      draft_docx_od env db q cn
        = (DraftResult.clauseNotFound cn
            (String.intercalate ", " (db.map Prod.fst)), []) := by
    intro hall
    have hf : db.find? (fun e => strContainsCI e.1 cn) = none :=
      List.find?_eq_none.mpr (fun kv hkv => by simp [hall kv hkv])
    simp [draft_docx_od, hf]
  refine ⟨⟨?_, ?_⟩, hnone⟩
  · rintro ⟨kv, hkv, hsub⟩ a av
    have hf : ∃ e, db.find? (fun e => strContainsCI e.1 cn) = some e := by
      cases hfind : db.find? (fun e => strContainsCI e.1 cn) with
      | none =>
        have := List.find?_eq_none.mp hfind kv hkv
        simp [hsub] at this
      | some e => exact ⟨e, rfl⟩
    rcases hf with ⟨e, hf⟩
    simp only [draft_docx_od, hf]
    cases hcall : get_latest_file_content env q with
    | mk o tr =>
      cases o with
      | none => simp
      | some p =>
        by_cases hex : clause_exists p.2 e.1
        · simp [hex]
        · simp only [hex]
          cases hup : upload_new_version env q
              { p.2 with paragraphs := p.2.paragraphs ++ [e.1, e.2] } with
          | mk res tr2 =>
            cases res <;> simp
  · intro hne
    by_contra hno
    have hall : ∀ kv ∈ db, strContainsCI kv.1 cn = false := by
      intro kv hkv
      cases hb : strContainsCI kv.1 cn with
      | false => rfl
      | true => exact absurd ⟨kv, hkv, hb⟩ hno
    exact hne cn (String.intercalate ", " (db.map Prod.fst))
      (by rw [hnone hall])

/-- C9 witness: a query matching no known title returns the listing of
available titles with an empty store trace, and a matching query does not
return the clause-not-found failure. -/
theorem C9_clause_query_resolution_witness :
    draft_docx_od envHealthy clausesDb "100" "add a warranty clause"
      = (DraftResult.clauseNotFound "add a warranty clause"
          "Auto Renewal, Payment Terms", [])
    ∧ (draft_docx_od envHealthy clausesDb "100"
        "add the auto renewal clause").1
        ≠ DraftResult.clauseNotFound "add the auto renewal clause"
            "Auto Renewal, Payment Terms" :=
  ⟨(C9_clause_query_resolution envHealthy clausesDb "100"
      "add a warranty clause").2 (by decide),
   (C9_clause_query_resolution envHealthy clausesDb "100"
      "add the auto renewal clause").1.mp
      ⟨("Auto Renewal", "This agreement renews automatically."),
        by decide, by decide⟩
      "add the auto renewal clause" "Auto Renewal, Payment Terms"⟩

theorem exbind_ok {α β ε : Type} (a : α) (f : α → Except ε β) :
    (Except.ok a >>= f) = f a := rfl

theorem exbind_error {α β ε : Type} (e : ε) (f : α → Except ε β) :
    ((Except.error e : Except ε α) >>= f) = Except.error e := rfl

theorem pyGet_ok_lt {l : List String} {i : Nat} {a : String}
    (h : pyGet l i = .ok a) : i < l.length := by
  unfold pyGet at h
  cases hg : l.get? i with
  | none => rw [hg] at h; cases h
  | some b => exact (List.get?_eq_some.mp hg).1

theorem setCellText_ok_shape {row : List String} {i : Nat}
    {v : Option String} {row2 : List String}
    (h : setCellText row i v = .ok row2) :
    row2.length = row.length ∧ i < row.length ∧ v.isSome = true := by
  unfold setCellText at h
  cases hg : pyGet row i with
  | error e => rw [hg] at h; cases h
  | ok a =>
    rw [hg] at h
    cases v with
    | none => cases h
    | some s =>
      simp only [Except.bind] at h
      cases h
      exact ⟨List.length_set .., pyGet_ok_lt hg, rfl⟩

/-- The row-append block raises (rather than completing) whenever the
table grid has fewer than three columns or the item name or price was
omitted. -/
theorem buildNewRow_error {cols : Nat} {iname desc price : Option String}
    (h : cols < 3 ∨ iname = none ∨ price = none) :
    ∃ e, buildNewRow cols iname desc price = .error e := by
  cases h1 : setCellText (List.replicate cols "") 0 iname with
  | error e => exact ⟨e, by simp only [buildNewRow]; rw [h1, exbind_error]⟩
  | ok r1 =>
    cases h2 : setCellText r1 1 desc with
    | error e =>
      exact ⟨e, by
        simp only [buildNewRow]
        rw [h1, exbind_ok, h2, exbind_error]⟩
    | ok r2 =>
      cases h3 : setCellText r2 2 price with
      | error e =>
        exact ⟨e, by
          simp only [buildNewRow]
          rw [h1, exbind_ok, h2, exbind_ok, h3, exbind_error]⟩
      | ok r3 =>
        exfalso
        have s1 := setCellText_ok_shape h1
        have s2 := setCellText_ok_shape h2
        have s3 := setCellText_ok_shape h3
        rw [List.length_replicate] at s1
        rcases h with hc | hi | hp
        · rcases s1 with ⟨e1, _⟩
          rcases s2 with ⟨e2, l2, _⟩
          rcases s3 with ⟨e3, l3, _⟩
          omega
        · rw [hi] at s1; simp at s1
        · rw [hp] at s3; simp at s3

theorem rowCheckCells_ok_true {cells : List String}
    {iname price : Option String}
    (h : rowCheckCells cells iname price = .ok true) :
    iname.isSome = true ∧ price.isSome = true ∧ 3 ≤ cells.length := by
  cases iname with
  | none =>
    rw [rowCheckCells] at h
    rw [show pyLower none = Except.error PyErr.attributeError from rfl,
        exbind_error] at h
    cases h
  | some s =>
    rw [rowCheckCells] at h
    rw [show pyLower (some s) = Except.ok (String.mk (lowerL s.toList))
          from rfl, exbind_ok] at h
    cases hg0 : pyGet cells 0 with
    | error e => rw [hg0, exbind_error] at h; cases h
    | ok c0 =>
      rw [hg0, exbind_ok] at h
      by_cases hs : hasSub (String.mk (lowerL s.toList)).toList c0.toList
        = true
      · rw [if_pos hs] at h
        cases price with
        | none =>
          rw [show pyLower none = Except.error PyErr.attributeError from rfl,
              exbind_error] at h
          cases h
        | some p =>
          rw [show pyLower (some p) = Except.ok (String.mk (lowerL p.toList))
                from rfl, exbind_ok] at h
          cases hg2 : pyGet cells 2 with
          | error e => rw [hg2, exbind_error] at h; cases h
          | ok c2 => exact ⟨rfl, rfl, pyGet_ok_lt hg2⟩
      · rw [if_neg hs] at h
        cases h

theorem rowCheck_ok_true {row : List String} {iname price : Option String}
    (h : rowCheck row iname price = .ok true) :
    iname.isSome = true ∧ price.isSome = true ∧ 3 ≤ row.length := by
  have h2 := rowCheckCells_ok_true h
  rwa [List.length_map] at h2

theorem rowExistsLoop_ok_true {iname price : Option String}
    {rows : List (List String)}
    (h : rowExistsLoop iname price rows = .ok true) :
    iname.isSome = true ∧ price.isSome = true
    ∧ ∃ r ∈ rows, 3 ≤ r.length := by
  induction rows with
  | nil => cases h
  | cons r rs ih =>
    rw [rowExistsLoop] at h
    cases hc : rowCheck r iname price with
    | error e => rw [hc, exbind_error] at h; cases h
    | ok b =>
      rw [hc, exbind_ok] at h
      cases b with
      | true =>
        have := rowCheck_ok_true hc
        exact ⟨this.1, this.2.1, r, List.mem_cons_self r rs, this.2.2⟩
      | false =>
        rw [if_neg Bool.false_ne_true] at h
        rcases ih h with ⟨h1, h2, rr, hrr, hlen⟩
        exact ⟨h1, h2, rr, List.mem_cons_of_mem r hrr, hlen⟩

/-- C10: whenever the duplicate-row check cannot be evaluated — the first
table has a row with fewer than 3 cells, or `item_name` or `price` was
omitted (`None`) — `add_line_item` returns the caught-error outcome of its
`try` block rather than escaping with an uncaught exception, and no upload
is issued.  (The hypothesis that every row exposes exactly `cols` cells is
the python-docx grid guarantee recorded in the `Table` model.) -/
theorem C10_robustness_no_uncaught (env : Env) (q : String)
    (iname desc price : Option String) (nm : String) (doc : Docx)
    (t : Table) (rest : List Table)
    (hget : (get_latest_file_content env q).1 = some (nm, doc))
    (htab : doc.tables = t :: rest)
    (huni : ∀ r ∈ t.rows, r.length = t.cols)
    (hbad : (∃ r ∈ t.rows, r.length < 3) ∨ iname = none ∨ price = none) :
    (∃ msg, (add_line_item env q iname desc price).1 = AddResult.error msg)
    ∧ ∀ r ∈ (add_line_item env q iname desc price).2,
        r.isUpload = false := by
  have hbad2 : t.cols < 3 ∨ iname = none ∨ price = none := by
    rcases hbad with ⟨r, hr, hlen⟩ | h | h
    · exact Or.inl (huni r hr ▸ hlen)
    · exact Or.inr (Or.inl h)
    · exact Or.inr (Or.inr h)
  cases hcall : get_latest_file_content env q with
  | mk o tr =>
    rw [hcall] at hget
    simp only at hget
    subst hget
    have htrace : ∀ r ∈ tr, r.isUpload = false := by
      intro r hr
      have hr2 : r ∈ (get_latest_file_content env q).2 := by
        rw [hcall]; exact hr
      rcases get_latest_trace_shape env q r hr2 with rfl | ⟨n, rfl⟩ <;> rfl
    cases hrow : row_exists doc iname price with
    | error e =>
      have hres : add_line_item env q iname desc price
          = (AddResult.error ("❌ Error: " ++ e.toMsg), tr) := by
        simp [add_line_item, hcall, htab, hrow]
      exact ⟨⟨"❌ Error: " ++ e.toMsg, by rw [hres]⟩, by rw [hres]; exact htrace⟩
    | ok b =>
      cases b with
      | true =>
        exfalso
        rw [row_exists, htab] at hrow
        rcases rowExistsLoop_ok_true hrow with ⟨hi, hp, r, hr, hlen⟩
        rcases hbad2 with hc | hn | hn
        · have := huni r hr
          omega
        · rw [hn] at hi; cases hi
        · rw [hn] at hp; cases hp
      | false =>
        rcases @buildNewRow_error t.cols iname desc price hbad2
          with ⟨e, hbuild⟩
        have hres : add_line_item env q iname desc price
            = (AddResult.error ("❌ Error: " ++ e.toMsg), tr) := by
          simp [add_line_item, hcall, htab, hrow, hbuild]
        exact ⟨⟨"❌ Error: " ++ e.toMsg, by rw [hres]⟩,
          by rw [hres]; exact htrace⟩

/-- C10 witness: a one-column pricing table (every row shorter than 3
cells) makes `add_line_item` return the caught-error outcome with no
upload issued. -/
theorem C10_robustness_no_uncaught_witness :
    (∃ msg, (add_line_item { envHealthy with download := fun _ => .ok docNarrow }
        "100" (some "Widget") (some "d") (some "$10")).1
        = AddResult.error msg)
    ∧ (add_line_item { envHealthy with download := fun _ => .ok docNarrow }
        "100" (some "Widget") (some "d") (some "$10")).2
        = [Req.list, Req.download "100_v3.docx"] :=
  have h := C10_robustness_no_uncaught
    { envHealthy with download := fun _ => .ok docNarrow } "100"
    (some "Widget") (some "d") (some "$10") "100_v3.docx" docNarrow
    { cols := 1, rows := [["Item"]] } [] (by decide) (by decide)
    (by decide) (Or.inl ⟨["Item"], by decide, by decide⟩)
  ⟨h.1, by decide⟩

theorem stripStart_append (l r : List Char) :
    stripStart l (l ++ r) = some r := by
  induction l with
  | nil => rfl
  | cons c cs ih => simp [stripStart, ih]

theorem stripEnd_append (sfx s : List Char) :
    stripEnd sfx (s ++ sfx) = some s := by
  unfold stripEnd
  rw [List.reverse_append, stripStart_append]
  simp

theorem suffixed_toList (q : String) (s : List Char) :
    (q ++ "_v" ++ String.mk s ++ ".docx").toList
      = (q.toList ++ ['_', 'v']) ++ (s ++ ['.', 'd', 'o', 'c', 'x']) := by
  show (q ++ "_v" ++ String.mk s ++ ".docx").data
      = (q.data ++ ['_', 'v']) ++ (s ++ ['.', 'd', 'o', 'c', 'x'])
  rw [String.data_append, String.data_append, String.data_append]
  show (q.data ++ ['_', 'v']) ++ s ++ ['.', 'd', 'o', 'c', 'x']
      = (q.data ++ ['_', 'v']) ++ (s ++ ['.', 'd', 'o', 'c', 'x'])
  rw [List.append_assoc]

/-- A `_v`-suffixed name never coincides with the unsuffixed name of the
same base (their lengths differ). -/
theorem suffixed_ne_unsuffixed (q : String) (s : List Char) :
    ¬ (q ++ "_v" ++ String.mk s ++ ".docx" = q ++ ".docx") := by
  intro h
  have hd := congrArg String.toList h
  rw [suffixed_toList] at hd
  have hd2 : (q ++ ".docx").toList = q.toList ++ ['.', 'd', 'o', 'c', 'x'] := by
    show (q ++ ".docx").data = q.data ++ ['.', 'd', 'o', 'c', 'x']
    rw [String.data_append]
  rw [hd2] at hd
  have hlen := congrArg List.length hd
  simp [List.length_append] at hlen

/-- Decoding a `_v`-suffixed name of the base reduces to parsing the digit
group. -/
theorem decodeName_suffixed (q : String) (s : List Char) :
    decodeName q (q ++ "_v" ++ String.mk s ++ ".docx") = parseDigits s := by
  unfold decodeName
  rw [if_neg (suffixed_ne_unsuffixed q s), suffixed_toList, stripStart_append]
  show (match stripEnd ['.', 'd', 'o', 'c', 'x'] (s ++ ['.', 'd', 'o', 'c', 'x']) with
        | none => none
        | some ds => parseDigits ds) = parseDigits s
  rw [stripEnd_append]

/-- C4 counterexample: the claim says a leading-zero suffix is treated as a
non-match; in fact `Q1_v01.docx` decodes to revision 1 just like
`Q1_v1.docx` (two distinct accepted names, one `(base, revision)` pair),
and `Q1_v0.docx` decodes to revision 0 just like the unsuffixed
`Q1.docx`. -/
theorem C4_counterexample :
    decodeName "Q1" "Q1_v01.docx" = some 1
    ∧ decodeName "Q1" "Q1_v1.docx" = some 1
    ∧ decodeName "Q1" "Q1_v0.docx" = some 0
    ∧ decodeName "Q1" "Q1.docx" = some 0 := by decide

/-- C4 (amended): the unsuffixed name decodes to revision 0; any nonempty
all-digit suffix is accepted — leading zeros included — and decodes to its
integer value (so decoding is not injective: `_v01` and `_v1` collide, and
`_v0` collides with the unsuffixed name); a suffix that is empty or
contains a non-digit is a non-match, never an error. -/
theorem C4_amended_decoding (q : String) (ds s : List Char) :
    decodeName q (q ++ ".docx") = some 0
    ∧ (ds ≠ [] → ds.all Char.isDigit = true →
        decodeName q (q ++ "_v" ++ String.mk ds ++ ".docx")
          = some (digitsVal ds))
    ∧ ((s = [] ∨ s.all Char.isDigit = false) →
        decodeName q (q ++ "_v" ++ String.mk s ++ ".docx") = none) := by
  refine ⟨?_, ?_, ?_⟩
  · unfold decodeName
    rw [if_pos rfl]
  · intro hne hall
    rw [decodeName_suffixed]
    unfold parseDigits
    rw [if_pos ⟨hne, hall⟩]
  · intro hbad
    rw [decodeName_suffixed]
    unfold parseDigits
    rcases hbad with rfl | hb
    · simp
    · rw [if_neg]
      rintro ⟨h1, h2⟩
      rw [hb] at h2
      cases h2

/-- C4 amended witness: `100_v01.docx` decodes to revision 1 (leading zero
collapsed), `100_vx7.docx` is a non-match, `100.docx` is revision 0. -/
theorem C4_amended_decoding_witness :
    decodeName "100" "100.docx" = some 0
    ∧ decodeName "100" ("100" ++ "_v" ++ String.mk ['0', '1'] ++ ".docx")
        = some (digitsVal ['0', '1'])
    ∧ decodeName "100" ("100" ++ "_v" ++ String.mk ['x', '7'] ++ ".docx")
        = none :=
  ⟨(C4_amended_decoding "100" ['0', '1'] ['x', '7']).1,
   (C4_amended_decoding "100" ['0', '1'] ['x', '7']).2.1 (by decide) (by decide),
   (C4_amended_decoding "100" ['0', '1'] ['x', '7']).2.2 (Or.inr (by decide))⟩

/-- A store whose list call raises. -/
def envListRaise : Env :=
  { list1 := .error "service unavailable"
    download := fun _ => .error "unreachable"
    list2 := .error "service unavailable"
    upload := fun _ => .error "unreachable"
    publicUrl := fun _ => "" }

/-- A store that lists revisions 0, 1, 3 but whose download call raises. -/
def envDownRaise : Env :=
  { envHealthy with download := fun _ => .error "read timeout" }

/-- C5 counterexample: the claim says list and download failures are
reported distinctly from not-found; in fact a raised list call and a raised
download both make `draft_docx_od` return the same
`❌ No files found for Quote 100` outcome a truly absent base produces. -/
theorem C5_counterexample :
    draft_docx_od envListRaise clausesDb "100" "Auto Renewal please"
      = (DraftResult.noFiles "100", [Req.list])
    ∧ draft_docx_od envDownRaise clausesDb "100" "Auto Renewal please"
      = (DraftResult.noFiles "100",
         [Req.list, Req.download "100_v3.docx"]) := by decide

/-- C5 (amended): `get_latest_file_content` catches every store exception
and returns the same `(None, None)` it returns for an absent base: a raised
list call yields `(None, None)` after only the list request, a raised
download of the selected latest revision yields `(None, None)`, and in
every such case the calling tool reports the not-found outcome. -/
theorem C5_amended_failures_conflated :
    (∀ (env : Env) (q e : String), env.list1 = .error e →
       get_latest_file_content env q = (none, [Req.list]))
    ∧ (∀ (env : Env) (q : String) (names : List String)
         (latest : Nat × String) (rest : List (Nat × String)) (e : String),
        env.list1 = .ok names →
        sortDesc (candidatesFor q names) = latest :: rest →
        env.download latest.2 = .error e →
        (get_latest_file_content env q).1 = none)
    ∧ (∀ (env : Env) (db : List (String × String)) (q cn : String)
         (kv : String × String),
        db.find? (fun x => strContainsCI x.1 cn) = some kv →
        (get_latest_file_content env q).1 = none →
        (draft_docx_od env db q cn).1 = DraftResult.noFiles q) := by
  refine ⟨?_, ?_, ?_⟩
  · intro env q e h
    simp [get_latest_file_content, h]
  · intro env q names latest rest e h1 hs hd
    have hne : ¬ candidatesFor q names = [] := by
      intro h
      have : latest ∈ sortDesc (candidatesFor q names) := by
        rw [hs]; exact List.mem_cons_self latest rest
      rw [h] at this
      cases mem_sortDesc.mp this
    simp [get_latest_file_content, h1, if_neg hne, hs, hd]
  · intro env db q cn kv hfind hget
    cases hcall : get_latest_file_content env q with
    | mk o tr =>
      rw [hcall] at hget
      simp only at hget
      subst hget
      simp [draft_docx_od, hfind, hcall]

/-- C5 amended witness: the three conflations at the concrete stores. -/
theorem C5_amended_failures_conflated_witness :
    get_latest_file_content envListRaise "100" = (none, [Req.list])
    ∧ (get_latest_file_content envDownRaise "100").1 = none
    ∧ (draft_docx_od envDownRaise clausesDb "100" "Auto Renewal please").1
        = DraftResult.noFiles "100" :=
  ⟨C5_amended_failures_conflated.1 envListRaise "100" "service unavailable" rfl,
   C5_amended_failures_conflated.2.1 envDownRaise "100"
     ["100.docx", "100_v1.docx", "100_v3.docx", "other.docx"]
     (3, "100_v3.docx") [(1, "100_v1.docx"), (0, "100.docx")] "read timeout"
     rfl (by decide) rfl,
   C5_amended_failures_conflated.2.2 envDownRaise clausesDb "100"
     "Auto Renewal please"
     ("Auto Renewal", "This agreement renews automatically.")
     (by decide) (by decide)⟩

/-- A store whose two list calls disagree: the resolver sees only revision
0, the allocator's fresh list call additionally sees revision 5 (written by
a concurrent client between the two calls). -/
def envRelist : Env :=
  { list1 := .ok ["100.docx"]
    download := fun _ => .ok { paragraphs := [], tables := [] }
    list2 := .ok ["100.docx", "100_v5.docx"]
    upload := fun _ => .ok ()
    publicUrl := fun n => "https://store.example/od-files/" ++ n }

/-- C6 counterexample: the claim says allocation uses the same listing
snapshot the resolver used, so here it would allocate `0 + 1 = 1`; in fact
`upload_new_version` issues a second list call and allocates from the
re-fetched listing, uploading `100_v6.docx`, not `100_v1.docx`. -/
theorem C6_counterexample :
    (candidatesFor "100" ["100.docx"]).map Prod.fst = [0]
    ∧ (draft_docx_od envRelist clausesDb "100" "Auto Renewal").2
        = [Req.list, Req.download "100.docx", Req.list,
           Req.upload "100_v6.docx" false]
    ∧ Req.upload "100_v1.docx" false ∉
        (draft_docx_od envRelist clausesDb "100" "Auto Renewal").2 := by
  decide

/-- C6 (amended): the allocator does not reuse the resolver's snapshot: a
commit that reaches `upload_new_version` issues a fresh list call, and the
revision it uploads is `1 +` the maximum decoded from that second listing
(`list2`), regardless of what the resolver's listing (`list1`) showed. -/
theorem C6_amended_allocator_refetches (env : Env) (quote : String)
    (doc : Docx) (names : List String) (h : env.list2 = .ok names) :
    (upload_new_version env quote doc).2
      = [Req.list,
         Req.upload (quote ++ "_v" ++ toString (nextVersion quote names)
            ++ ".docx") false] := by
  simp only [upload_new_version, h]
  cases env.upload (quote ++ "_v" ++ toString (nextVersion quote names)
      ++ ".docx") <;> rfl

/-- C6 amended witness: with the re-fetched listing `{0, 5}` the commit
uploads revision 6 after its own fresh list call. -/
theorem C6_amended_allocator_refetches_witness :
    (upload_new_version envRelist "100"
        { paragraphs := [], tables := [] }).2
      = [Req.list,
         Req.upload ("100" ++ "_v"
            ++ toString (nextVersion "100" ["100.docx", "100_v5.docx"])
            ++ ".docx") false] :=
  C6_amended_allocator_refetches envRelist "100"
    { paragraphs := [], tables := [] } ["100.docx", "100_v5.docx"] rfl

/-- A store whose upload call is rejected because the key already exists
(a concurrent writer created it first). -/
def envCollide : Env :=
  { list1 := .ok ["100.docx"]
    download := fun _ => .ok { paragraphs := [], tables := [] }
    list2 := .ok ["100.docx"]
    upload := fun _ => .error "Resource already exists"
    publicUrl := fun _ => "" }

/-- C7 counterexample: the claim says a key-exists upload rejection is
surfaced as a distinct typed `Failed(VersionCollision)` outcome; in fact it
lands in the same uncategorized catch-all `❌ Error: ...` return used for
every other store failure (here shown against an unrelated upload failure
producing the same constructor). -/
theorem C7_counterexample :
    (draft_docx_od envCollide clausesDb "100" "Auto Renewal").1
      = DraftResult.error "❌ Error: Upload failed: Resource already exists"
    ∧ (draft_docx_od
          { envCollide with upload := fun _ => .error "connection reset" }
          clausesDb "100" "Auto Renewal").1
      = DraftResult.error "❌ Error: Upload failed: connection reset" := by
  decide

/-- C7 (amended): every upload request carries `upsert: "false"` (the
store rejects an existing key instead of overwriting), but an upload
failure — key collision included — is re-raised as
`Exception("Upload failed: {e}")` and surfaces through the generic
catch-all error outcome, with no distinct collision type. -/
theorem C7_amended_upsert_no_distinct_collision :
    (∀ (env : Env) (quote : String) (doc : Docx) (r : Req),
       r ∈ (upload_new_version env quote doc).2 →
       ∀ n u, r = Req.upload n u → u = false)
    ∧ (∀ (env : Env) (quote : String) (doc : Docx) (names : List String)
         (e : String),
        env.list2 = .ok names →
        env.upload (quote ++ "_v" ++ toString (nextVersion quote names)
          ++ ".docx") = .error e →
        (upload_new_version env quote doc).1
          = .error ("Upload failed: " ++ e)) := by
  constructor
  · intro env quote doc r hr n u hru
    rcases hl : env.list2 with e | names
    · rw [upload_new_version, hl] at hr
      simp at hr
      rw [hr] at hru
      cases hru
    · rw [upload_new_version, hl] at hr
      simp only at hr
      rcases hu : env.upload (quote ++ "_v"
          ++ toString (nextVersion quote names) ++ ".docx") with e | _ <;>
        rw [hu] at hr <;> simp at hr <;>
        rcases hr with hr | hr <;> rw [hr] at hru
      · cases hru
      · cases hru; rfl
      · cases hru
      · cases hru; rfl
  · intro env quote doc names e h1 h2
    simp [upload_new_version, h1, h2]

/-- C7 amended witness: the colliding store rejects with `upsert: "false"`
recorded on the upload request and the generic failure string returned. -/
theorem C7_amended_upsert_no_distinct_collision_witness :
    Req.upload "100_v1.docx" false
      ∈ (upload_new_version envCollide "100"
          { paragraphs := [], tables := [] }).2
    ∧ false = false
    ∧ (upload_new_version envCollide "100"
        { paragraphs := [], tables := [] }).1
        = .error ("Upload failed: " ++ "Resource already exists") :=
  ⟨by decide,
   C7_amended_upsert_no_distinct_collision.1 envCollide "100"
      { paragraphs := [], tables := [] } (Req.upload "100_v1.docx" false)
      (by decide) "100_v1.docx" false rfl,
   C7_amended_upsert_no_distinct_collision.2 envCollide "100"
      { paragraphs := [], tables := [] } ["100.docx"]
      "Resource already exists" rfl rfl⟩
